import Mathlib

/-!
Verification of the BlackRoad invoice manager core (src/invoice.py).

The Python module is embedded shallowly:
* monetary values are rationals; Python's `round(x, n)` (round half to even)
  becomes `round2` / `round1`;
* the SQLite database becomes a `DB` record holding the `invoices` and
  `line_items` tables as lists of rows; SQL text comparison is the `String`
  order, and the SQL `LIKE` operator (ASCII case-insensitive, `%`/`_`
  wildcards) is the executable matcher `likeMatch`;
* environment effects (clock, uuid generation) become explicit parameters
  (`now`, `due_date`, `year`, `newId`, `itemIds`);
* Python exceptions become `Except Err`.
-/

namespace InvoiceMgr

/-- Floor of a rational as an integer, computed with floor division. -/
def qfloor (q : ℚ) : ℤ := Int.fdiv q.num q.den

/-- Round a rational to the nearest integer, ties to even
(the rounding used by Python's built-in `round`). -/
def roundHalfEven (q : ℚ) : ℤ :=
  let f := qfloor q
  let r := q - (f : ℚ)
  if r < 1/2 then f
  else if 1/2 < r then f + 1
  else if f % 2 = 0 then f else f + 1

/-- Python's `round(x, 2)`. -/
def round2 (q : ℚ) : ℚ := (roundHalfEven (100 * q) : ℚ) / 100

/-- Python's `round(x, 1)`. -/
def round1 (q : ℚ) : ℚ := (roundHalfEven (10 * q) : ℚ) / 10

/-- SQLite's default `NOCASE`-style folding for `LIKE`: ASCII upper-case
letters compare equal to their lower-case forms. -/
def foldChar (c : Char) : Char :=
  if 'A' ≤ c ∧ c ≤ 'Z' then Char.ofNat (c.toNat + 32) else c

/-- SQLite `LIKE` pattern matching: `%` matches any sequence, `_` any single
character, other characters match ASCII case-insensitively. -/
def likeMatch : List Char → List Char → Bool
  | [], t => t.isEmpty
  | p :: ps, t =>
    if p = '%' then
      likeMatch ps t ||
        (match t with
         | [] => false
         | _ :: ts => likeMatch (p :: ps) ts)
    else
      match t with
      | [] => false
      | c :: ts =>
        if p = '_' then likeMatch ps ts
        else (foldChar p == foldChar c) && likeMatch ps ts
  termination_by ps ts => ps.length + ts.length

/-- A line item as constructed in Python: `LineItem(description, qty, unit_price)`. -/
structure LineItem where
  description : String
  qty : ℚ
  unit_price : ℚ
  deriving DecidableEq, Repr

/-- `LineItem.total`: `round(self.qty * self.unit_price, 2)`. -/
def LineItem.total (li : LineItem) : ℚ := round2 (li.qty * li.unit_price)

/-- The in-memory `Invoice` dataclass. -/
structure Invoice where
  id : String
  number : String
  client_name : String
  client_email : String
  line_items : List LineItem
  tax_rate : ℚ
  discount : ℚ
  status : String
  due_date : String
  created_at : String
  paid_at : Option String
  payment_method : Option String
  notes : String
  currency : String
  deriving DecidableEq, Repr

/-- `Invoice.subtotal`: `round(sum(li.total for li in self.line_items), 2)`. -/
def Invoice.subtotal (inv : Invoice) : ℚ :=
  round2 ((inv.line_items.map LineItem.total).sum)

/-- `Invoice.discount_amount`: `round(self.subtotal * self.discount, 2)`. -/
def Invoice.discount_amount (inv : Invoice) : ℚ :=
  round2 (inv.subtotal * inv.discount)

/-- `Invoice.taxable_amount`: `round(self.subtotal - self.discount_amount, 2)`. -/
def Invoice.taxable_amount (inv : Invoice) : ℚ :=
  round2 (inv.subtotal - inv.discount_amount)

/-- `Invoice.tax_amount`: `round(self.taxable_amount * self.tax_rate, 2)`. -/
def Invoice.tax_amount (inv : Invoice) : ℚ :=
  round2 (inv.taxable_amount * inv.tax_rate)

/-- `Invoice.total`: `round(self.taxable_amount + self.tax_amount, 2)`. -/
def Invoice.total (inv : Invoice) : ℚ :=
  round2 (inv.taxable_amount + inv.tax_amount)

/-- A row of the `invoices` table. -/
structure InvoiceRow where
  id : String
  number : String
  client_name : String
  client_email : String
  tax_rate : ℚ
  discount : ℚ
  status : String
  due_date : String
  created_at : String
  paid_at : Option String
  payment_method : Option String
  notes : String
  currency : String
  deriving DecidableEq, Repr

/-- A row of the `line_items` table. -/
structure LineItemRow where
  id : String
  invoice_id : String
  description : String
  qty : ℚ
  unit_price : ℚ
  position : Nat
  deriving DecidableEq, Repr

/-- The persisted store: both tables. -/
structure DB where
  invoices : List InvoiceRow
  line_items : List LineItemRow
  deriving DecidableEq, Repr

/-- Error taxonomy: Python's `ValueError` at the validation sites maps to
`validation`, `KeyError` to `notFound`, `ValueError` at the transition
sites to `invalidTransition`. -/
inductive Err where
  | validation : String → Err
  | notFound : String → Err
  | invalidTransition : String → Err
  deriving DecidableEq, Repr

/-- `_row_to_invoice`: rebuild an `Invoice` from a row and its line items. -/
def rowToInvoice (row : InvoiceRow) (items : List LineItem) : Invoice :=
  { id := row.id, number := row.number,
    client_name := row.client_name, client_email := row.client_email,
    line_items := items, tax_rate := row.tax_rate, discount := row.discount,
    status := row.status, due_date := row.due_date, created_at := row.created_at,
    paid_at := row.paid_at, payment_method := row.payment_method,
    notes := row.notes, currency := row.currency }

/-- Ordering used by `ORDER BY position` in `get_invoice`. -/
def byPosition (a b : LineItemRow) : Prop := a.position ≤ b.position

instance : DecidableRel byPosition := fun a b => Nat.decLe a.position b.position

instance : IsTotal LineItemRow byPosition :=
  ⟨fun a b => Nat.le_total a.position b.position⟩

instance : IsTrans LineItemRow byPosition :=
  ⟨fun _ _ _ hab hbc => Nat.le_trans hab hbc⟩

/-- `get_invoice`: look the row up by id, fetch its line items ordered by
`position` ascending, rebuild the `Invoice`. -/
def get_invoice (invoice_id : String) (db : DB) : Except Err Invoice :=
  match db.invoices.find? (fun r => r.id == invoice_id) with
  | none => .error (.notFound ("Invoice " ++ invoice_id ++ " not found"))
  | some row =>
    let li_rows :=
      (db.line_items.filter (fun r => r.invoice_id == invoice_id)).insertionSort byPosition
    .ok (rowToInvoice row (li_rows.map (fun r => ⟨r.description, r.qty, r.unit_price⟩)))

/-- Zero-pad a sequence number to five digits, Python's `f"{seq:05d}"`
for non-negative values. -/
def pad5 (n : Nat) : String :=
  let s := toString n
  String.mk (List.replicate (5 - s.length) '0') ++ s

/-- `_invoice_number`: count the rows whose `number` matches
`INV-{year}-%` with SQL `LIKE`, add one, format. -/
def invoice_number (year : Nat) (db : DB) : String :=
  let pat := "INV-" ++ toString year ++ "-%"
  let cnt := (db.invoices.filter (fun r => likeMatch pat.toList r.number.toList)).length
  "INV-" ++ toString year ++ "-" ++ pad5 (cnt + 1)

/-- Python's `enumerate(items)` insert loop of `create_invoice`: the item at
offset `i` is stored with `position = i`. -/
def itemRows (itemIds : Nat → String) (invId : String) : Nat → List LineItem → List LineItemRow
  | _, [] => []
  | i, li :: rest =>
    { id := itemIds i, invoice_id := invId, description := li.description,
      qty := li.qty, unit_price := li.unit_price, position := i }
      :: itemRows itemIds invId (i + 1) rest

/-- `create_invoice`.  The clock and the uuid generator are passed in
explicitly: `now` is `datetime.utcnow().isoformat()`, `due_date` the
ISO date `now + due_days` days, `year` the current year, `newId` the
invoice uuid and `itemIds i` the uuid of the `i`-th line-item row.
Validation happens before any write; on error the store is returned
unchanged. -/
def create_invoice (client_name client_email : String) (items : List LineItem)
    (tax_rate discount : ℚ) (notes currency : String)
    (newId : String) (itemIds : Nat → String) (year : Nat)
    (now due_date : String) (db : DB) : Except Err Invoice × DB :=
  if items.isEmpty then
    (.error (.validation "Invoice must have at least one line item"), db)
  else if ¬ (0 ≤ tax_rate ∧ tax_rate ≤ 1) then
    (.error (.validation "tax_rate must be between 0 and 1"), db)
  else if ¬ (0 ≤ discount ∧ discount ≤ 1) then
    (.error (.validation "discount must be between 0 and 1"), db)
  else
    let number := invoice_number year db
    let inv : Invoice :=
      { id := newId, number := number,
        client_name := client_name, client_email := client_email,
        line_items := items, tax_rate := tax_rate, discount := discount,
        status := "draft", due_date := due_date, created_at := now,
        paid_at := none, payment_method := none,
        notes := notes, currency := currency }
    let row : InvoiceRow :=
      { id := newId, number := number,
        client_name := client_name, client_email := client_email,
        tax_rate := tax_rate, discount := discount,
        status := "draft", due_date := due_date, created_at := now,
        paid_at := none, payment_method := none,
        notes := notes, currency := currency }
    (.ok inv,
     { invoices := db.invoices ++ [row],
       line_items := db.line_items ++ itemRows itemIds newId 0 items })

/-- `send_invoice`: check `status == "paid"` before the update, then set
`status = 'sent'` on every row with the given id and re-read the invoice. -/
def send_invoice (invoice_id : String) (db : DB) : Except Err Invoice × DB :=
  match db.invoices.find? (fun r => r.id == invoice_id) with
  | none => (.error (.notFound ("Invoice " ++ invoice_id ++ " not found")), db)
  | some row =>
    if row.status == "paid" then
      (.error (.invalidTransition "Cannot send a paid invoice"), db)
    else
      let db' : DB :=
        { db with invoices := db.invoices.map (fun r =>
            if r.id == invoice_id then { r with status := "sent" } else r) }
      (get_invoice invoice_id db', db')

/-- `mark_paid`: check `status == "paid"` before the update, then set
`status`, `paid_at` and `payment_method` and re-read the invoice.
`now` stands for `datetime.utcnow().isoformat()`. -/
def mark_paid (invoice_id : String) (payment_method : String)
    (now : String) (db : DB) : Except Err Invoice × DB :=
  match db.invoices.find? (fun r => r.id == invoice_id) with
  | none => (.error (.notFound ("Invoice " ++ invoice_id ++ " not found")), db)
  | some row =>
    if row.status == "paid" then
      (.error (.invalidTransition "Invoice already paid"), db)
    else
      let db' : DB :=
        { db with invoices := db.invoices.map (fun r =>
            if r.id == invoice_id then
              { r with status := "paid", paid_at := some now,
                       payment_method := some payment_method }
            else r) }
      (get_invoice invoice_id db', db')

/-- `mark_paid` with Python's default `payment_method="bank_transfer"`. -/
def mark_paid_default (invoice_id : String) (now : String) (db : DB) :
    Except Err Invoice × DB :=
  mark_paid invoice_id "bank_transfer" now db

/-- The `WHERE status='sent' AND due_date < ?` predicate of `mark_overdue`;
SQLite compares the ISO date texts, which is the lexicographic string order. -/
def overduePred (today : String) (r : InvoiceRow) : Bool :=
  r.status == "sent" && decide (r.due_date < today)

/-- `mark_overdue`: select the ids of the sent rows past due, and when the
list is non-empty set their status to `overdue`; return the ids.
`today` stands for `datetime.utcnow().date().isoformat()`. -/
def mark_overdue (today : String) (db : DB) : List String × DB :=
  let ids := (db.invoices.filter (overduePred today)).map (fun r => r.id)
  if ids.isEmpty then (ids, db)
  else
    (ids,
     { db with invoices := db.invoices.map (fun r =>
         if ids.contains r.id then { r with status := "overdue" } else r) })

/-- A calendar date, as produced by `datetime.date`. -/
structure Date where
  year : Nat
  month : Nat
  day : Nat
  deriving DecidableEq, Repr

/-- Day count of a proleptic Gregorian date (valid for `year ≥ 1`),
mirroring the day arithmetic behind Python's `date` subtraction. -/
def Date.dayNumber (d : Date) : Nat :=
  let y := if d.month ≤ 2 then d.year - 1 else d.year
  let era := y / 400
  let yoe := y % 400
  let mp := (d.month + 9) % 12
  let doy := (153 * mp + 2) / 5 + d.day - 1
  let doe := yoe * 365 + yoe / 4 - yoe / 100 + doy
  era * 146097 + doe

/-- Split a character list on `'-'`. -/
def splitOnDash : List Char → List (List Char)
  | [] => [[]]
  | c :: rest =>
    let r := splitOnDash rest
    if c = '-' then [] :: r
    else
      match r with
      | [] => [[c]]
      | g :: gs => (c :: g) :: gs

/-- Read a non-empty all-digit character list as a number. -/
def readNat (l : List Char) : Option Nat :=
  if l = [] then none
  else if l.all Char.isDigit then
    some (l.foldl (fun n c => n * 10 + (c.toNat - 48)) 0)
  else none

/-- Parse an ISO `YYYY-MM-DD` date string, the format stored in
`due_date`, as `datetime.fromisoformat(...).date()` reads it back. -/
def parseISODate (s : String) : Option Date :=
  match (splitOnDash s.toList).map readNat with
  | [some y, some m, some d] => some ⟨y, m, d⟩
  | _ => none

/-- `calculate_overdue_fee`: fetch the invoice; a paid invoice costs `0.0`;
otherwise `round(total * daily_rate * max(0, (today - due).days), 2)`.
`today` stands for `datetime.utcnow().date()`; an unparsable stored date
surfaces as an error, as `datetime.fromisoformat` would raise. -/
def calculate_overdue_fee (invoice_id : String) (daily_rate : ℚ)
    (today : Date) (db : DB) : Except Err ℚ :=
  match get_invoice invoice_id db with
  | .error e => .error e
  | .ok inv =>
    if inv.status == "paid" then .ok 0
    else
      match parseISODate inv.due_date with
      | none => .error (.validation ("Invalid isoformat string: " ++ inv.due_date))
      | some due =>
        let days_overdue : ℤ := max 0 ((today.dayNumber : ℤ) - (due.dayNumber : ℤ))
        .ok (round2 (inv.total * daily_rate * (days_overdue : ℚ)))

/-- The fields of the dict returned by `summary_report`. -/
structure Summary where
  period_start : Option String
  period_end : Option String
  total_invoices : Nat
  total_invoiced : ℚ
  paid_count : Nat
  paid_total : ℚ
  overdue_count : Nat
  overdue_total : ℚ
  draft_count : Nat
  sent_count : Nat
  collection_rate : ℚ
  deriving DecidableEq, Repr

/-- The successful body of `get_invoice` for a row already read from the
table: rebuild the invoice with its line items ordered by position. -/
def fetchRow (db : DB) (row : InvoiceRow) : Invoice :=
  rowToInvoice row
    (((db.line_items.filter (fun r => r.invoice_id == row.id)).insertionSort byPosition).map
      (fun r => ⟨r.description, r.qty, r.unit_price⟩))

/-- The invoices a whole-table scan reconstructs via `get_invoice`
(the per-row `get_invoice` cannot fail for a row read from the table). -/
def invoicesOf (db : DB) : List Invoice :=
  db.invoices.map (fetchRow db)

/-- `summary_report`: filter by `created_at BETWEEN ? AND ?` when both period
bounds are given and truthy (Python treats empty strings as falsy), compute
per-status counts and totals, and the rounded collection rate, `0` when
there are no invoices. -/
def summary_report (period_start period_end : Option String) (db : DB) : Summary :=
  let rows :=
    if period_start.getD "" ≠ "" ∧ period_end.getD "" ≠ "" then
      db.invoices.filter (fun r =>
        decide (period_start.getD "" ≤ r.created_at ∧
                r.created_at ≤ period_end.getD ""))
    else db.invoices
  let all_invoices := invoicesOf { db with invoices := rows }
  let paid := all_invoices.filter (fun i => i.status == "paid")
  let overdue := all_invoices.filter (fun i => i.status == "overdue")
  let draft := all_invoices.filter (fun i => i.status == "draft")
  let sent := all_invoices.filter (fun i => i.status == "sent")
  { period_start := period_start, period_end := period_end,
    total_invoices := all_invoices.length,
    total_invoiced := round2 ((all_invoices.map Invoice.total).sum),
    paid_count := paid.length,
    paid_total := round2 ((paid.map Invoice.total).sum),
    overdue_count := overdue.length,
    overdue_total := round2 ((overdue.map Invoice.total).sum),
    draft_count := draft.length,
    sent_count := sent.length,
    collection_rate :=
      if all_invoices.isEmpty then 0
      else round1 ((paid.length : ℚ) / (all_invoices.length : ℚ) * 100) }

/-- Ordering used by `ORDER BY created_at DESC` in `list_invoices`. -/
def byCreatedDesc (a b : InvoiceRow) : Prop := b.created_at ≤ a.created_at

instance : DecidableRel byCreatedDesc :=
  fun a b => String.decidableLE b.created_at a.created_at

instance : IsTotal InvoiceRow byCreatedDesc :=
  ⟨fun a b => le_total b.created_at a.created_at⟩

instance : IsTrans InvoiceRow byCreatedDesc :=
  ⟨fun _ _ _ hab hbc => le_trans hbc hab⟩

/-- The `status=?` part of the `list_invoices` filter; Python skips it
when the argument is falsy (absent or the empty string). -/
def statusPred (status : Option String) (r : InvoiceRow) : Bool :=
  match status with
  | none => true
  | some s => if s = "" then true else r.status == s

/-- The `client_name LIKE '%client%'` part of the `list_invoices` filter;
Python skips it when the argument is falsy (absent or the empty string). -/
def clientPred (client : Option String) (r : InvoiceRow) : Bool :=
  match client with
  | none => true
  | some c =>
    if c = "" then true
    else likeMatch ("%" ++ c ++ "%").toList r.client_name.toList

/-- The row filter of `list_invoices`. -/
def listPred (status client : Option String) (r : InvoiceRow) : Bool :=
  statusPred status r && clientPred client r

/-- `list_invoices`: filter, order by `created_at` descending, and fetch
each invoice. -/
def list_invoices (status client : Option String) (db : DB) : List Invoice :=
  let rows := (db.invoices.filter (listPred status client)).insertionSort byCreatedDesc
  invoicesOf { db with invoices := rows }


/-! ### Evaluation helpers for the rounding functions -/

theorem qfloor_intCast (n : ℤ) : qfloor (n : ℚ) = n := by
  simp [qfloor, Rat.num_intCast, Rat.den_intCast, Int.fdiv_one]

theorem roundHalfEven_intCast (n : ℤ) : roundHalfEven (n : ℚ) = n := by
  unfold roundHalfEven
  rw [qfloor_intCast]
  norm_num

theorem round2_intMul (n : ℤ) (q : ℚ) (h : 100 * q = (n : ℚ)) :
    round2 q = (n : ℚ) / 100 := by
  rw [round2, h, roundHalfEven_intCast]

theorem round1_intMul (n : ℤ) (q : ℚ) (h : 10 * q = (n : ℚ)) :
    round1 q = (n : ℚ) / 10 := by
  rw [round1, h, roundHalfEven_intCast]

theorem round2_zero : round2 0 = 0 := by
  rw [round2_intMul 0 0 (by norm_num)]
  norm_num

theorem round2_eval (q r : ℚ) (n : ℤ) (h1 : 100 * q = (n : ℚ)) (h2 : (n : ℚ) = 100 * r) :
    round2 q = r := by
  rw [round2, h1, roundHalfEven_intCast, h2]
  exact mul_div_cancel_left₀ r (by norm_num)

theorem round1_eval (q r : ℚ) (n : ℤ) (h1 : 10 * q = (n : ℚ)) (h2 : (n : ℚ) = 10 * r) :
    round1 q = r := by
  rw [round1, h1, roundHalfEven_intCast, h2]
  exact mul_div_cancel_left₀ r (by norm_num)

/-! ### Concrete instances used to evaluate the claims -/

/-- The invoice of the spec's worked example:
items `[(qty=2, price=100), (qty=1, price=50)]`, `tax_rate=0.1`, `discount=0.05`. -/
def exInvC1 : Invoice :=
  { id := "i1", number := "INV-2025-00001", client_name := "TestCo",
    client_email := "t@t.com",
    line_items := [⟨"Service A", 2, 100⟩, ⟨"Service B", 1, 50⟩],
    tax_rate := 1/10, discount := 5/100, status := "draft",
    due_date := "2025-11-11", created_at := "2025-10-12T00:00:00",
    paid_at := none, payment_method := none, notes := "", currency := "USD" }

/-- A template row for the concrete databases below. -/
def baseRow : InvoiceRow :=
  { id := "r0", number := "INV-2025-00001", client_name := "Acme Corp",
    client_email := "a@a.com", tax_rate := 0, discount := 0,
    status := "draft", due_date := "2025-11-11",
    created_at := "2025-10-01T00:00:00", paid_at := none,
    payment_method := none, notes := "", currency := "USD" }

/-- A store with one invoice in each situation `mark_overdue` can meet:
sent and past due, sent but not yet due, paid, draft, already overdue. -/
def exDB2 : DB :=
  { invoices :=
      [{ baseRow with id := "s-old", status := "sent", due_date := "2025-09-01" },
       { baseRow with id := "s-new", status := "sent", due_date := "2025-12-31" },
       { baseRow with
           id := "p1"
           status := "paid"
           paid_at := some "2025-10-02T00:00:00"
           payment_method := some "bank_transfer" },
       { baseRow with id := "d1" },
       { baseRow with id := "o1", status := "overdue", due_date := "2025-08-01" }],
    line_items := [] }

/-- The paid-fields invariant on one row: `paid_at` and `payment_method`
are set (non-null) iff the status is `paid`. -/
def RowOk (r : InvoiceRow) : Prop :=
  (r.status = "paid" → r.paid_at.isSome ∧ r.payment_method.isSome) ∧
  (r.status ≠ "paid" → r.paid_at = none ∧ r.payment_method = none)

/-- The paid-fields invariant over the whole store. -/
def DBOk (db : DB) : Prop := ∀ r ∈ db.invoices, RowOk r

instance : DecidablePred RowOk := fun r => by
  unfold RowOk
  infer_instance

instance (db : DB) : Decidable (DBOk db) := by
  unfold DBOk
  infer_instance

/-- A store with a paid invoice (`pd`) and an overdue invoice (`ov`,
due `2025-10-02`, one line item of 100). -/
def exDB7 : DB :=
  { invoices :=
      [{ baseRow with
           id := "pd"
           status := "paid"
           due_date := "2025-01-01"
           paid_at := some "2025-02-01T00:00:00"
           payment_method := some "bank_transfer" },
       { baseRow with id := "ov", status := "overdue", due_date := "2025-10-02" }],
    line_items := [⟨"l1", "ov", "X", 1, 100, 0⟩] }

/-- The invoice `get_invoice "ov" exDB7` reconstructs. -/
def invOv7 : Invoice :=
  rowToInvoice { baseRow with id := "ov", status := "overdue", due_date := "2025-10-02" }
    [⟨"X", 1, 100⟩]

/-- The invoice `get_invoice "pd" exDB7` reconstructs. -/
def invPd7 : Invoice :=
  rowToInvoice
    { baseRow with
        id := "pd"
        status := "paid"
        due_date := "2025-01-01"
        paid_at := some "2025-02-01T00:00:00"
        payment_method := some "bank_transfer" } []


/-- A store with exactly one paid and one draft invoice of equal totals. -/
def exDB8 : DB :=
  { invoices :=
      [{ baseRow with
           id := "p8"
           status := "paid"
           paid_at := some "2025-10-02T00:00:00"
           payment_method := some "bank_transfer" },
       { baseRow with id := "d8" }],
    line_items := [⟨"l1", "p8", "X", 1, 100, 0⟩, ⟨"l2", "d8", "Y", 1, 100, 0⟩] }


/-- ASCII case-insensitive: `sub` folds to the start of `t`. -/
def ciStartsWith : List Char → List Char → Bool
  | [], _ => true
  | _ :: _, [] => false
  | c :: cs, t :: ts => (foldChar c == foldChar t) && ciStartsWith cs ts

/-- ASCII case-insensitive: `sub` folds to the start of some suffix. -/
def ciContainsAux (sub : List Char) : List Char → Bool
  | [] => ciStartsWith sub []
  | t :: ts => ciStartsWith sub (t :: ts) || ciContainsAux sub ts

/-- ASCII case-insensitive substring containment: what the SQLite
`LIKE '%sub%'` filter of `list_invoices` computes for a wildcard-free
`sub`. -/
def ciContains (name sub : String) : Bool := ciContainsAux sub.toList name.toList

/-- The spec's words for the client filter, stated verbatim for
comparison: `sub` occurs in `name` as a case-SENSITIVE substring. -/
def specContainsSubstring (name sub : String) : Bool :=
  (List.range (name.length + 1)).any (fun i =>
    ((name.toList.drop i).take sub.length) == sub.toList)

/-- A store with one invoice whose client name is upper-case `ACME`. -/
def exDB9 : DB :=
  { invoices := [{ baseRow with id := "a1", client_name := "ACME" }],
    line_items := [] }

/-! ### Claims -/

/-- Claim C1: every derived monetary field rounds to 2 decimals at each
intermediate step — line-item total, subtotal, discount amount, taxable
amount, tax amount and grand total — and on items
`[(qty=2, price=100), (qty=1, price=50)]` with `tax_rate=0.1`,
`discount=0.05` the values are subtotal `250.00`, discount `12.50`,
taxable `237.50`, tax `23.75`, total `261.25`. -/
theorem monetary_fields_rounded_each_step :
    (∀ li : LineItem, li.total = round2 (li.qty * li.unit_price)) ∧
    (∀ inv : Invoice,
      inv.subtotal = round2 ((inv.line_items.map LineItem.total).sum) ∧
      inv.discount_amount = round2 (inv.subtotal * inv.discount) ∧
      inv.taxable_amount = round2 (inv.subtotal - inv.discount_amount) ∧
      inv.tax_amount = round2 (inv.taxable_amount * inv.tax_rate) ∧
      inv.total = round2 (inv.taxable_amount + inv.tax_amount)) ∧
    (exInvC1.subtotal = 250 ∧ exInvC1.discount_amount = 25/2 ∧
     exInvC1.taxable_amount = 475/2 ∧ exInvC1.tax_amount = 95/4 ∧
     exInvC1.total = 1045/4) := by
  refine ⟨fun _ => rfl, fun _ => ⟨rfl, rfl, rfl, rfl, rfl⟩, ?_⟩
  have h0 : exInvC1.subtotal = 250 := by
    rw [Invoice.subtotal]
    norm_num [exInvC1, LineItem.total]
    rw [round2_eval 200 200 20000 (by norm_num) (by norm_num),
        round2_eval 50 50 5000 (by norm_num) (by norm_num)]
    exact round2_eval _ _ 25000 (by norm_num) (by norm_num)
  have h1 : exInvC1.discount_amount = 25/2 := by
    rw [Invoice.discount_amount, h0]
    norm_num [exInvC1]
    exact round2_eval _ _ 1250 (by norm_num) (by norm_num)
  have h2 : exInvC1.taxable_amount = 475/2 := by
    rw [Invoice.taxable_amount, h0, h1]
    exact round2_eval _ _ 23750 (by norm_num) (by norm_num)
  have h3 : exInvC1.tax_amount = 95/4 := by
    rw [Invoice.tax_amount, h2]
    norm_num [exInvC1]
    exact round2_eval _ _ 2375 (by norm_num) (by norm_num)
  have h4 : exInvC1.total = 1045/4 := by
    rw [Invoice.total, h2, h3]
    exact round2_eval _ _ 26125 (by norm_num) (by norm_num)
  exact ⟨h0, h1, h2, h3, h4⟩

/-- Under unique ids, membership of a row's id in the ids of the filtered
rows decides the filter itself. -/
theorem contains_filter_map_id (l : List InvoiceRow) (p : InvoiceRow → Bool)
    (hnod : (l.map (fun r => r.id)).Nodup) {r : InvoiceRow} (hr : r ∈ l) :
    ((l.filter p).map (fun x => x.id)).contains r.id = p r := by
  apply Bool.coe_iff_coe.mp
  change List.elem r.id _ = true ↔ _
  rw [List.elem_eq_mem, decide_eq_true_iff]
  constructor
  · intro hmem
    obtain ⟨r', hr', hid⟩ := List.mem_map.mp hmem
    obtain ⟨hr'l, hp'⟩ := List.mem_filter.mp hr'
    have := List.inj_on_of_nodup_map hnod hr'l hr hid
    rwa [this] at hp'
  · intro hp
    exact List.mem_map_of_mem _ (List.mem_filter.mpr ⟨hr, hp⟩)

/-- Claim C2: `mark_overdue` transitions to `overdue` exactly the invoices
with status `sent` and `due_date` strictly before today; every other invoice
is unchanged, the line-item table is untouched, and the returned ids are
exactly the transitioned rows' ids. -/
theorem sweep_overdue_exact (today : String) (db : DB)
    (hnod : (db.invoices.map (fun r => r.id)).Nodup) :
    (mark_overdue today db).1 =
      (db.invoices.filter (overduePred today)).map (fun r => r.id) ∧
    (mark_overdue today db).2.line_items = db.line_items ∧
    (mark_overdue today db).2.invoices =
      db.invoices.map (fun r =>
        if overduePred today r then { r with status := "overdue" } else r) := by
  refine ⟨?_, ?_, ?_⟩
  · rw [mark_overdue]
    split <;> rfl
  · rw [mark_overdue]
    split <;> rfl
  · rw [mark_overdue]
    split
    · next hemp =>
      have hfil : db.invoices.filter (overduePred today) = [] := by
        rcases hf : db.invoices.filter (overduePred today) with _ | ⟨a, as⟩
        · rfl
        · rw [hf] at hemp; simp at hemp
      have hnone : ∀ r ∈ db.invoices, ¬ (overduePred today r = true) := by
        intro r hr hp
        have : r ∈ db.invoices.filter (overduePred today) := List.mem_filter.mpr ⟨hr, hp⟩
        rw [hfil] at this
        exact absurd this (List.not_mem_nil r)
      conv_lhs => rw [show db.invoices = db.invoices.map id from (List.map_id _).symm]
      apply List.map_congr_left
      intro r hr
      rw [if_neg (hnone r hr)]
      rfl
    · apply List.map_congr_left
      intro r hr
      rw [contains_filter_map_id db.invoices (overduePred today) hnod hr]

/-- Witness for C2 on `exDB2` with today = `2025-10-12`: only the sent,
past-due invoice is transitioned and returned. -/
theorem sweep_overdue_exact_witness :
    (mark_overdue "2025-10-12" exDB2).1 = ["s-old"] ∧
    (mark_overdue "2025-10-12" exDB2).2.invoices =
      exDB2.invoices.map (fun r =>
        if overduePred "2025-10-12" r then { r with status := "overdue" } else r) := by
  have h := sweep_overdue_exact "2025-10-12" exDB2 (by decide)
  refine ⟨h.1.trans ?_, h.2.2⟩
  simp [exDB2, baseRow, overduePred, List.filter_cons]
  decide

/-- An id-preserving per-row update commutes with the id lookup. -/
theorem find?_map_preserve (l : List InvoiceRow) (i : String)
    (f : InvoiceRow → InvoiceRow) (hf : ∀ r, (f r).id = r.id)
    {row : InvoiceRow} (h : l.find? (fun r => r.id == i) = some row) :
    (l.map f).find? (fun r => r.id == i) = some (f row) := by
  rw [List.find?_map]
  have hcomp : ((fun r : InvoiceRow => r.id == i) ∘ f) =
      (fun r : InvoiceRow => r.id == i) := by
    funext r
    simp [Function.comp, hf r]
  rw [hcomp, h]
  rfl

/-- Claim C3: `mark_paid` on a non-paid invoice sets status `paid`, a
non-null `paid_at = now` and the given `payment_method` (whose Python
default is `"bank_transfer"`); on an already-paid invoice it fails with
the invalid-transition error and leaves the store unchanged. -/
theorem mark_paid_spec (invoice_id pm now : String) (db : DB) (row : InvoiceRow)
    (hfind : db.invoices.find? (fun r => r.id == invoice_id) = some row) :
    (row.status ≠ "paid" →
      (mark_paid invoice_id pm now db).2.invoices =
        db.invoices.map (fun r =>
          if r.id == invoice_id then
            { r with status := "paid", paid_at := some now,
                     payment_method := some pm }
          else r) ∧
      ∃ inv, (mark_paid invoice_id pm now db).1 = .ok inv ∧
        inv.status = "paid" ∧ inv.paid_at = some now ∧
        inv.payment_method = some pm) ∧
    (row.status = "paid" →
      mark_paid invoice_id pm now db =
        (.error (.invalidTransition "Invoice already paid"), db)) ∧
    mark_paid_default invoice_id now db = mark_paid invoice_id "bank_transfer" now db := by
  have hpr : (row.id == invoice_id) = true :=
    @List.find?_some InvoiceRow (fun r => r.id == invoice_id) row db.invoices hfind
  refine ⟨?_, ?_, rfl⟩
  · intro hnp
    have hbeq : (row.status == "paid") = false := by
      simp [hnp]
    rw [mark_paid, hfind]
    simp only [hbeq]
    set upd : InvoiceRow → InvoiceRow := fun r =>
      if r.id == invoice_id then
        { r with status := "paid", paid_at := some now, payment_method := some pm }
      else r with hupd
    have hid : ∀ r : InvoiceRow, (upd r).id = r.id := by
      intro r
      rw [hupd]
      by_cases h : (r.id == invoice_id) = true <;> simp [h]
    refine ⟨rfl, ?_⟩
    have hfind' :
        (db.invoices.map upd).find? (fun r => r.id == invoice_id) = some (upd row) :=
      find?_map_preserve db.invoices invoice_id upd hid hfind
    refine ⟨rowToInvoice (upd row)
      (((((db.invoices.map upd, db.line_items) : List InvoiceRow × List LineItemRow).2.filter
        (fun r => r.invoice_id == invoice_id)).insertionSort
        byPosition).map (fun r => ⟨r.description, r.qty, r.unit_price⟩)), ?_, ?_, ?_, ?_⟩
    · show get_invoice invoice_id _ = _
      rw [get_invoice]
      simp only [hfind']
    · show (upd row).status = "paid"
      rw [hupd]
      simp [hpr]
    · show (upd row).paid_at = some now
      rw [hupd]
      simp [hpr]
    · show (upd row).payment_method = some pm
      rw [hupd]
      simp [hpr]
  · intro hp
    have hbeq : (row.status == "paid") = true := by simp [hp]
    rw [mark_paid, hfind]
    simp only [hbeq]
    rfl

/-- Witness for C3: paying the draft invoice `d1` of `exDB2` succeeds with
the given method and timestamp; paying the already-paid `p1` fails and
leaves the store unchanged. -/
theorem mark_paid_spec_witness :
    (∃ inv, (mark_paid "d1" "credit_card" "2025-10-12T09:00:00" exDB2).1 = .ok inv ∧
      inv.status = "paid" ∧ inv.paid_at = some "2025-10-12T09:00:00" ∧
      inv.payment_method = some "credit_card") ∧
    mark_paid "p1" "visa" "2025-10-12T09:00:00" exDB2 =
      (.error (.invalidTransition "Invoice already paid"), exDB2) := by
  constructor
  · exact ((mark_paid_spec "d1" "credit_card" "2025-10-12T09:00:00" exDB2
      { baseRow with id := "d1" } (by rfl)).1 (by decide)).2
  · exact (mark_paid_spec "p1" "visa" "2025-10-12T09:00:00" exDB2
      { baseRow with
          id := "p1"
          status := "paid"
          paid_at := some "2025-10-02T00:00:00"
          payment_method := some "bank_transfer" } (by rfl)).2.1 (by rfl)

/-- Claim C4: `send_invoice` on a draft, sent or overdue invoice sets its
status to `sent` (re-sending is permitted); it fails if and only if the
invoice is paid, with the invalid-transition error, leaving the store
unchanged. -/
theorem send_invoice_spec (invoice_id : String) (db : DB) (row : InvoiceRow)
    (hfind : db.invoices.find? (fun r => r.id == invoice_id) = some row) :
    (row.status = "draft" ∨ row.status = "sent" ∨ row.status = "overdue" →
      (send_invoice invoice_id db).2.invoices =
        db.invoices.map (fun r =>
          if r.id == invoice_id then { r with status := "sent" } else r) ∧
      ∃ inv, (send_invoice invoice_id db).1 = .ok inv ∧ inv.status = "sent") ∧
    (row.status = "paid" ↔
      (send_invoice invoice_id db).1 =
        .error (.invalidTransition "Cannot send a paid invoice")) ∧
    (row.status = "paid" → (send_invoice invoice_id db).2 = db) := by
  have hpr : (row.id == invoice_id) = true :=
    @List.find?_some InvoiceRow (fun r => r.id == invoice_id) row db.invoices hfind
  have hok : row.status ≠ "paid" →
      (send_invoice invoice_id db).2.invoices =
        db.invoices.map (fun r =>
          if r.id == invoice_id then { r with status := "sent" } else r) ∧
      ∃ inv, (send_invoice invoice_id db).1 = .ok inv ∧ inv.status = "sent" := by
    intro hnp
    have hbeq : (row.status == "paid") = false := by simp [hnp]
    rw [send_invoice, hfind]
    simp only [hbeq]
    set upd : InvoiceRow → InvoiceRow := fun r =>
      if r.id == invoice_id then { r with status := "sent" } else r with hupd
    have hid : ∀ r : InvoiceRow, (upd r).id = r.id := by
      intro r
      rw [hupd]
      by_cases h : (r.id == invoice_id) = true <;> simp [h]
    have hfind' :
        (db.invoices.map upd).find? (fun r => r.id == invoice_id) = some (upd row) :=
      find?_map_preserve db.invoices invoice_id upd hid hfind
    refine ⟨rfl, rowToInvoice (upd row)
      (((db.line_items.filter (fun r => r.invoice_id == invoice_id)).insertionSort
        byPosition).map (fun r => ⟨r.description, r.qty, r.unit_price⟩)), ?_, ?_⟩
    · show get_invoice invoice_id _ = _
      rw [get_invoice]
      simp only [hfind']
    · show (upd row).status = "sent"
      rw [hupd]
      simp [hpr]
  refine ⟨?_, ⟨?_, ?_⟩, ?_⟩
  · intro hs
    apply hok
    rcases hs with h | h | h <;> rw [h] <;> decide
  · intro hp
    have hbeq : (row.status == "paid") = true := by simp [hp]
    rw [send_invoice, hfind]
    simp only [hbeq]
    rfl
  · intro herr
    by_contra hnp
    obtain ⟨-, inv, hinv, -⟩ := hok hnp
    rw [herr] at hinv
    exact Except.noConfusion hinv
  · intro hp
    have hbeq : (row.status == "paid") = true := by simp [hp]
    rw [send_invoice, hfind]
    simp only [hbeq]
    rfl

/-- Witness for C4: sending the draft `d1`, the sent `s-new` and the
overdue `o1` of `exDB2` succeeds with status `sent`; sending the paid `p1`
fails with the invalid-transition error and the store is unchanged. -/
theorem send_invoice_spec_witness :
    (∃ inv, (send_invoice "d1" exDB2).1 = .ok inv ∧ inv.status = "sent") ∧
    (∃ inv, (send_invoice "s-new" exDB2).1 = .ok inv ∧ inv.status = "sent") ∧
    (∃ inv, (send_invoice "o1" exDB2).1 = .ok inv ∧ inv.status = "sent") ∧
    (send_invoice "p1" exDB2).1 =
      .error (.invalidTransition "Cannot send a paid invoice") ∧
    (send_invoice "p1" exDB2).2 = exDB2 := by
  refine ⟨?_, ?_, ?_, ?_, ?_⟩
  · exact ((send_invoice_spec "d1" exDB2 { baseRow with id := "d1" }
      (by rfl)).1 (Or.inl (by rfl))).2
  · exact ((send_invoice_spec "s-new" exDB2
      { baseRow with id := "s-new", status := "sent", due_date := "2025-12-31" }
      (by rfl)).1 (Or.inr (Or.inl (by rfl)))).2
  · exact ((send_invoice_spec "o1" exDB2
      { baseRow with id := "o1", status := "overdue", due_date := "2025-08-01" }
      (by rfl)).1 (Or.inr (Or.inr (by rfl)))).2
  · exact (send_invoice_spec "p1" exDB2
      { baseRow with
          id := "p1"
          status := "paid"
          paid_at := some "2025-10-02T00:00:00"
          payment_method := some "bank_transfer" } (by rfl)).2.1.mp (by rfl)
  · exact (send_invoice_spec "p1" exDB2
      { baseRow with
          id := "p1"
          status := "paid"
          paid_at := some "2025-10-02T00:00:00"
          payment_method := some "bank_transfer" } (by rfl)).2.2 (by rfl)

/-- Claim C5: `create_invoice` fails with a validation error exactly when
the item list is empty, or `tax_rate` is outside `[0,1]`, or `discount` is
outside `[0,1]`; on any failure the store is unchanged (no invoice
created). -/
theorem create_invoice_validation (client_name client_email : String) (items : List LineItem)
    (tax_rate discount : ℚ) (notes currency : String)
    (newId : String) (itemIds : Nat → String) (year : Nat)
    (now due_date : String) (db : DB) :
    ((∃ msg, (create_invoice client_name client_email items tax_rate discount
        notes currency newId itemIds year now due_date db).1 =
        .error (.validation msg)) ↔
      (items = [] ∨ tax_rate < 0 ∨ 1 < tax_rate ∨ discount < 0 ∨ 1 < discount)) ∧
    (∀ e, (create_invoice client_name client_email items tax_rate discount
        notes currency newId itemIds year now due_date db).1 = .error e →
      (create_invoice client_name client_email items tax_rate discount
        notes currency newId itemIds year now due_date db).2 = db) := by
  rw [create_invoice]
  by_cases h1 : items.isEmpty = true
  · rw [if_pos h1]
    exact ⟨⟨fun _ => Or.inl (List.isEmpty_iff.mp h1), fun _ => ⟨_, rfl⟩⟩, fun e _ => rfl⟩
  · rw [if_neg h1]
    by_cases h2 : (0 ≤ tax_rate ∧ tax_rate ≤ 1)
    · rw [if_neg (not_not_intro h2)]
      by_cases h3 : (0 ≤ discount ∧ discount ≤ 1)
      · rw [if_neg (not_not_intro h3)]
        refine ⟨⟨?_, ?_⟩, ?_⟩
        · rintro ⟨msg, hmsg⟩
          exact Except.noConfusion hmsg
        · rintro (h | h | h | h | h)
          · exact absurd (List.isEmpty_iff.mpr h) h1
          · exact absurd h2.1 (not_le.mpr h)
          · exact absurd h2.2 (not_le.mpr h)
          · exact absurd h3.1 (not_le.mpr h)
          · exact absurd h3.2 (not_le.mpr h)
        · intro e he
          exact Except.noConfusion he
      · rw [if_pos h3]
        refine ⟨⟨fun _ => ?_, fun _ => ⟨_, rfl⟩⟩, fun e _ => rfl⟩
        rcases not_and_or.mp h3 with h | h
        · exact Or.inr (Or.inr (Or.inr (Or.inl (not_le.mp h))))
        · exact Or.inr (Or.inr (Or.inr (Or.inr (not_le.mp h))))
    · rw [if_pos h2]
      refine ⟨⟨fun _ => ?_, fun _ => ⟨_, rfl⟩⟩, fun e _ => rfl⟩
      rcases not_and_or.mp h2 with h | h
      · exact Or.inr (Or.inl (not_le.mp h))
      · exact Or.inr (Or.inr (Or.inl (not_le.mp h)))

/-- Witness for C5: empty items, `tax_rate = 1.5` and `discount = -0.1`
each fail with a validation error; the failing create leaves the store
unchanged. -/
theorem create_invoice_validation_witness :
    (create_invoice "Acme" "a@a.com" [] 0 0 "" "USD" "n1" (fun _ => "li") 2025
       "2025-10-12T00:00:00" "2025-11-11" exDB2).2 = exDB2 ∧
    (∃ msg, (create_invoice "Acme" "a@a.com" [] 0 0 "" "USD" "n1" (fun _ => "li") 2025
       "2025-10-12T00:00:00" "2025-11-11" exDB2).1 = .error (.validation msg)) ∧
    (∃ msg, (create_invoice "Acme" "a@a.com" [⟨"X", 1, 100⟩] (3/2) 0 "" "USD" "n1"
       (fun _ => "li") 2025 "2025-10-12T00:00:00" "2025-11-11" exDB2).1 =
       .error (.validation msg)) ∧
    (∃ msg, (create_invoice "Acme" "a@a.com" [⟨"X", 1, 100⟩] 0 (-(1/10)) "" "USD" "n1"
       (fun _ => "li") 2025 "2025-10-12T00:00:00" "2025-11-11" exDB2).1 =
       .error (.validation msg)) := by
  refine ⟨?_, ?_, ?_, ?_⟩
  · exact (create_invoice_validation "Acme" "a@a.com" [] 0 0 "" "USD" "n1" (fun _ => "li")
      2025 "2025-10-12T00:00:00" "2025-11-11" exDB2).2
      (.validation "Invoice must have at least one line item") (by rfl)
  · exact (create_invoice_validation "Acme" "a@a.com" [] 0 0 "" "USD" "n1" (fun _ => "li")
      2025 "2025-10-12T00:00:00" "2025-11-11" exDB2).1.mpr (Or.inl rfl)
  · exact (create_invoice_validation "Acme" "a@a.com" [⟨"X", 1, 100⟩] (3/2) 0 "" "USD" "n1"
      (fun _ => "li") 2025 "2025-10-12T00:00:00" "2025-11-11" exDB2).1.mpr
      (Or.inr (Or.inr (Or.inl (by norm_num))))
  · exact (create_invoice_validation "Acme" "a@a.com" [⟨"X", 1, 100⟩] 0 (-(1/10)) "" "USD" "n1"
      (fun _ => "li") 2025 "2025-10-12T00:00:00" "2025-11-11" exDB2).1.mpr
      (Or.inr (Or.inr (Or.inr (Or.inl (by norm_num)))))

/-- Claim C6: `paid_at`/`payment_method` are non-null iff status is `paid`,
and every operation preserves this: a failed or successful create keeps the
invariant and yields a draft invoice with both fields null; send, mark-paid
and the overdue sweep preserve the invariant; and none of them moves a paid
row out of `paid` or clears its fields (every paid row is carried over
unchanged). -/
theorem paid_fields_invariant
    (db : DB) (hok : DBOk db)
    (hnod : (db.invoices.map (fun r => r.id)).Nodup)
    (client_name client_email notes currency newId invoice_id pm now today due_date : String)
    (items : List LineItem) (tax_rate discount : ℚ) (itemIds : Nat → String) (year : Nat) :
    DBOk (create_invoice client_name client_email items tax_rate discount
      notes currency newId itemIds year now due_date db).2 ∧
    (∀ inv, (create_invoice client_name client_email items tax_rate discount
        notes currency newId itemIds year now due_date db).1 = .ok inv →
      inv.status = "draft" ∧ inv.paid_at = none ∧ inv.payment_method = none) ∧
    DBOk (send_invoice invoice_id db).2 ∧
    DBOk (mark_paid invoice_id pm now db).2 ∧
    DBOk (mark_overdue today db).2 ∧
    (∀ r ∈ db.invoices, r.status = "paid" → r ∈ (send_invoice invoice_id db).2.invoices) ∧
    (∀ r ∈ db.invoices, r.status = "paid" → r ∈ (mark_paid invoice_id pm now db).2.invoices) ∧
    (∀ r ∈ db.invoices, r.status = "paid" → r ∈ (mark_overdue today db).2.invoices) := by
  have hbeq_id : ∀ a b : String, (a == b) = true ↔ a = b := fun a b => beq_iff_eq
  refine ⟨?_, ?_, ?_, ?_, ?_, ?_, ?_, ?_⟩
  -- create preserves DBOk
  · rw [create_invoice]
    by_cases h1 : items.isEmpty = true
    · rw [if_pos h1]; exact hok
    · rw [if_neg h1]
      by_cases h2 : (0 ≤ tax_rate ∧ tax_rate ≤ 1)
      · rw [if_neg (not_not_intro h2)]
        by_cases h3 : (0 ≤ discount ∧ discount ≤ 1)
        · rw [if_neg (not_not_intro h3)]
          intro r hr
          rcases List.mem_append.mp hr with h | h
          · exact hok r h
          · rcases List.mem_singleton.mp h with rfl
            exact ⟨fun hp => absurd hp (by simp), fun _ => ⟨rfl, rfl⟩⟩
        · rw [if_pos h3]; exact hok
      · rw [if_pos h2]; exact hok
  -- create yields a draft invoice with null paid fields
  · rw [create_invoice]
    by_cases h1 : items.isEmpty = true
    · rw [if_pos h1]; intro inv hinv; exact Except.noConfusion hinv
    · rw [if_neg h1]
      by_cases h2 : (0 ≤ tax_rate ∧ tax_rate ≤ 1)
      · rw [if_neg (not_not_intro h2)]
        by_cases h3 : (0 ≤ discount ∧ discount ≤ 1)
        · rw [if_neg (not_not_intro h3)]
          intro inv hinv
          have h := (Except.ok.inj hinv).symm
          rw [h]
          exact ⟨rfl, rfl, rfl⟩
        · rw [if_pos h3]; intro inv hinv; exact Except.noConfusion hinv
      · rw [if_pos h2]; intro inv hinv; exact Except.noConfusion hinv
  -- send preserves DBOk
  · rcases hfind : db.invoices.find? (fun r => r.id == invoice_id) with _ | row
    · rw [send_invoice]
      simp only [hfind]
      exact hok
    · have hprow : (row.id == invoice_id) = true :=
        @List.find?_some InvoiceRow (fun r => r.id == invoice_id) row db.invoices hfind
      have hrowmem : row ∈ db.invoices := List.mem_of_find?_eq_some hfind
      rw [send_invoice]
      by_cases hp : (row.status == "paid") = true
      · simp only [hfind, hp]
        exact hok
      · have hpb : (row.status == "paid") = false := by simpa using hp
        simp only [hfind, hpb]
        intro r' hr'
        obtain ⟨r, hr, rfl⟩ := List.mem_map.mp hr'
        by_cases hid : (r.id == invoice_id) = true
        · simp only [hid]
          have hreq : r = row :=
            List.inj_on_of_nodup_map hnod hr hrowmem
              (((hbeq_id _ _).mp hid).trans ((hbeq_id _ _).mp hprow).symm)
          have hnp : r.status ≠ "paid" := by
            rw [hreq]
            intro hc
            rw [hc] at hpb
            simp at hpb
          have hfields := (hok r hr).2 hnp
          exact ⟨fun hc => absurd hc (by simp), fun _ => ⟨hfields.1, hfields.2⟩⟩
        · have hidb : (r.id == invoice_id) = false := by simpa using hid
          simp only [hidb]
          exact hok r hr
  -- mark_paid preserves DBOk
  · rcases hfind : db.invoices.find? (fun r => r.id == invoice_id) with _ | row
    · rw [mark_paid]
      simp only [hfind]
      exact hok
    · rw [mark_paid]
      by_cases hp : (row.status == "paid") = true
      · simp only [hfind, hp]
        exact hok
      · have hpb : (row.status == "paid") = false := by simpa using hp
        simp only [hfind, hpb]
        intro r' hr'
        obtain ⟨r, hr, rfl⟩ := List.mem_map.mp hr'
        by_cases hid : (r.id == invoice_id) = true
        · simp only [hid]
          exact ⟨fun _ => ⟨rfl, rfl⟩, fun hc => absurd rfl hc⟩
        · have hidb : (r.id == invoice_id) = false := by simpa using hid
          simp only [hidb]
          exact hok r hr
  -- mark_overdue preserves DBOk
  · rw [mark_overdue]
    by_cases hemp : ((db.invoices.filter (overduePred today)).map (fun r => r.id)).isEmpty = true
    · rw [if_pos hemp]; exact hok
    · rw [if_neg hemp]
      intro r' hr'
      obtain ⟨r, hr, rfl⟩ := List.mem_map.mp hr'
      rw [contains_filter_map_id db.invoices (overduePred today) hnod hr]
      by_cases hov : overduePred today r = true
      · simp only [hov]
        have hsent : r.status = "sent" :=
          (hbeq_id _ _).mp ((Bool.and_eq_true _ _).mp hov).1
        have hnp : r.status ≠ "paid" := by rw [hsent]; simp
        have hfields := (hok r hr).2 hnp
        exact ⟨fun hc => absurd hc (by simp), fun _ => ⟨hfields.1, hfields.2⟩⟩
      · have hovb : overduePred today r = false := by simpa using hov
        simp only [hovb]
        exact hok r hr
  -- send leaves every paid row unchanged and present
  · intro r hr hpaid
    rcases hfind : db.invoices.find? (fun x => x.id == invoice_id) with _ | row
    · rw [send_invoice]
      simp only [hfind]
      exact hr
    · have hprow : (row.id == invoice_id) = true :=
        @List.find?_some InvoiceRow (fun x => x.id == invoice_id) row db.invoices hfind
      have hrowmem : row ∈ db.invoices := List.mem_of_find?_eq_some hfind
      rw [send_invoice]
      by_cases hp : (row.status == "paid") = true
      · simp only [hfind, hp]
        exact hr
      · have hpb : (row.status == "paid") = false := by simpa using hp
        simp only [hfind, hpb]
        refine List.mem_map.mpr ⟨r, hr, ?_⟩
        have hidb : (r.id == invoice_id) = false := by
          rcases hb : (r.id == invoice_id) with _ | _
          · rfl
          · exfalso
            have hreq : r = row :=
              List.inj_on_of_nodup_map hnod hr hrowmem
                (((hbeq_id _ _).mp hb).trans ((hbeq_id _ _).mp hprow).symm)
            rw [← hreq, hpaid] at hpb
            simp at hpb
        simp only [hidb]
        rfl
  -- mark_paid leaves every paid row unchanged and present
  · intro r hr hpaid
    rcases hfind : db.invoices.find? (fun x => x.id == invoice_id) with _ | row
    · rw [mark_paid]
      simp only [hfind]
      exact hr
    · have hprow : (row.id == invoice_id) = true :=
        @List.find?_some InvoiceRow (fun x => x.id == invoice_id) row db.invoices hfind
      have hrowmem : row ∈ db.invoices := List.mem_of_find?_eq_some hfind
      rw [mark_paid]
      by_cases hp : (row.status == "paid") = true
      · simp only [hfind, hp]
        exact hr
      · have hpb : (row.status == "paid") = false := by simpa using hp
        simp only [hfind, hpb]
        refine List.mem_map.mpr ⟨r, hr, ?_⟩
        have hidb : (r.id == invoice_id) = false := by
          rcases hb : (r.id == invoice_id) with _ | _
          · rfl
          · exfalso
            have hreq : r = row :=
              List.inj_on_of_nodup_map hnod hr hrowmem
                (((hbeq_id _ _).mp hb).trans ((hbeq_id _ _).mp hprow).symm)
            rw [← hreq, hpaid] at hpb
            simp at hpb
        simp only [hidb]
        rfl
  -- mark_overdue leaves every paid row unchanged and present
  · intro r hr hpaid
    rw [mark_overdue]
    by_cases hemp : ((db.invoices.filter (overduePred today)).map (fun r => r.id)).isEmpty = true
    · rw [if_pos hemp]; exact hr
    · rw [if_neg hemp]
      refine List.mem_map.mpr ⟨r, hr, ?_⟩
      rw [contains_filter_map_id db.invoices (overduePred today) hnod hr]
      have hovb : overduePred today r = false := by
        rcases hb : overduePred today r with _ | _
        · rfl
        · exfalso
          have hsent : r.status = "sent" :=
            (hbeq_id _ _).mp ((Bool.and_eq_true _ _).mp hb).1
          rw [hpaid] at hsent
          exact absurd hsent (by simp)
      simp only [hovb]
      rfl

/-- Witness for C6 on `exDB2` (which satisfies the invariant): the
invariant still holds after send, mark-paid and the sweep, and the paid
row is carried over unchanged by each. -/
theorem paid_fields_invariant_witness :
    DBOk (send_invoice "s-old" exDB2).2 ∧
    DBOk (mark_paid "s-old" "visa" "2025-10-12T09:00:00" exDB2).2 ∧
    DBOk (mark_overdue "2025-10-12" exDB2).2 ∧
    (∀ r ∈ exDB2.invoices, r.status = "paid" →
      r ∈ (mark_overdue "2025-10-12" exDB2).2.invoices) := by
  have h := paid_fields_invariant exDB2 (by decide) (by decide)
    "Acme" "a@a.com" "" "USD" "n1" "s-old" "visa" "2025-10-12T09:00:00"
    "2025-10-12" "2025-11-11" [⟨"X", 1, 50⟩] 0 0 (fun _ => "li") 2025
  exact ⟨h.2.2.1, h.2.2.2.1, h.2.2.2.2.1, h.2.2.2.2.2.2.2⟩

/-- Claim C7: `calculate_overdue_fee` returns `0.0` for a paid invoice
regardless of its due date; for any other status it returns
`round(total * daily_rate * max(0, today - due_date in days), 2)`, which is
`0` whenever the due date is today or later. -/
theorem overdue_fee_spec (invoice_id : String) (daily_rate : ℚ) (today : Date) (db : DB)
    (inv : Invoice) (hget : get_invoice invoice_id db = .ok inv) :
    (inv.status = "paid" →
      calculate_overdue_fee invoice_id daily_rate today db = .ok 0) ∧
    (∀ due, inv.status ≠ "paid" → parseISODate inv.due_date = some due →
      (calculate_overdue_fee invoice_id daily_rate today db =
        .ok (round2 (inv.total * daily_rate *
          (((max 0 ((today.dayNumber : ℤ) - (due.dayNumber : ℤ)) : ℤ)) : ℚ))) ∧
      (today.dayNumber ≤ due.dayNumber →
        calculate_overdue_fee invoice_id daily_rate today db = .ok 0))) := by
  constructor
  · intro hp
    rw [calculate_overdue_fee, hget]
    have hb : (inv.status == "paid") = true := by simp [hp]
    simp only [hb]
    rfl
  · intro due hnp hparse
    have hb : (inv.status == "paid") = false := by simp [hnp]
    have heq : calculate_overdue_fee invoice_id daily_rate today db =
        .ok (round2 (inv.total * daily_rate *
          (((max 0 ((today.dayNumber : ℤ) - (due.dayNumber : ℤ)) : ℤ)) : ℚ))) := by
      rw [calculate_overdue_fee, hget]
      simp only [hb, hparse]
      rfl
    refine ⟨heq, ?_⟩
    intro hle
    rw [heq]
    have hmax : max 0 ((today.dayNumber : ℤ) - (due.dayNumber : ℤ)) = 0 :=
      max_eq_left (sub_nonpos.mpr (Int.ofNat_le.mpr hle))
    rw [hmax]
    norm_num [round2_zero]

/-- Witness for C7 on `exDB7` with `daily_rate = 0.001`: the paid invoice
costs 0, the overdue invoice costs 0 before its due date and 1.00 ten days
past due (total 100). -/
theorem overdue_fee_spec_witness :
    calculate_overdue_fee "pd" (1/1000) ⟨2025, 10, 12⟩ exDB7 = .ok 0 ∧
    calculate_overdue_fee "ov" (1/1000) ⟨2025, 9, 1⟩ exDB7 = .ok 0 ∧
    calculate_overdue_fee "ov" (1/1000) ⟨2025, 10, 12⟩ exDB7 = .ok 1 := by
  refine ⟨?_, ?_, ?_⟩
  · exact (overdue_fee_spec "pd" (1/1000) ⟨2025, 10, 12⟩ exDB7 invPd7 (by rfl)).1 (by rfl)
  · exact (((overdue_fee_spec "ov" (1/1000) ⟨2025, 9, 1⟩ exDB7 invOv7 (by rfl)).2
      ⟨2025, 10, 2⟩ (by decide) (by rfl)).2) (by decide)
  · have h := ((overdue_fee_spec "ov" (1/1000) ⟨2025, 10, 12⟩ exDB7 invOv7 (by rfl)).2
      ⟨2025, 10, 2⟩ (by decide) (by rfl)).1
    refine h.trans ?_
    have hd : (max 0 (((Date.mk 2025 10 12).dayNumber : ℤ) -
        ((Date.mk 2025 10 2).dayNumber : ℤ))) = 10 := by decide
    have hsub : invOv7.subtotal = 100 := by
      rw [Invoice.subtotal]
      norm_num [invOv7, rowToInvoice, LineItem.total]
      rw [round2_eval 100 100 10000 (by norm_num) (by norm_num)]
      exact round2_eval _ _ 10000 (by norm_num) (by norm_num)
    have hdisc : invOv7.discount_amount = 0 := by
      rw [Invoice.discount_amount, hsub]
      have : invOv7.discount = 0 := by norm_num [invOv7, rowToInvoice, baseRow]
      rw [this]
      exact round2_eval _ _ 0 (by norm_num) (by norm_num)
    have htaxable : invOv7.taxable_amount = 100 := by
      rw [Invoice.taxable_amount, hsub, hdisc]
      exact round2_eval _ _ 10000 (by norm_num) (by norm_num)
    have htax : invOv7.tax_amount = 0 := by
      rw [Invoice.tax_amount, htaxable]
      have : invOv7.tax_rate = 0 := by norm_num [invOv7, rowToInvoice, baseRow]
      rw [this]
      exact round2_eval _ _ 0 (by norm_num) (by norm_num)
    have htot : invOv7.total = 100 := by
      rw [Invoice.total, htaxable, htax]
      exact round2_eval _ _ 10000 (by norm_num) (by norm_num)
    rw [htot, hd]
    have : round2 (100 * (1/1000) * (((10:ℤ)) : ℚ)) = 1 := by
      refine round2_eval _ _ 100 ?_ ?_
      · push_cast
        norm_num
      · norm_num
    rw [this]

/-- Claim C8: `summary_report` computes `collection_rate =
round(paid_count / total_count * 100, 1)` when the filtered set is
non-empty and `0` when it is empty (no division happens); with no invoices
all counts are zero, and with one paid and one draft invoice it reports
`paid_count = 1`, `draft_count = 1`, `collection_rate = 50.0`. -/
theorem summary_report_spec (ps pe : Option String) (db : DB) :
    ((summary_report ps pe db).total_invoices ≠ 0 →
      (summary_report ps pe db).collection_rate =
        round1 (((summary_report ps pe db).paid_count : ℚ) /
          ((summary_report ps pe db).total_invoices : ℚ) * 100)) ∧
    ((summary_report ps pe db).total_invoices = 0 →
      (summary_report ps pe db).collection_rate = 0) ∧
    ((summary_report none none (⟨[], []⟩ : DB)).total_invoices = 0 ∧
     (summary_report none none (⟨[], []⟩ : DB)).paid_count = 0 ∧
     (summary_report none none (⟨[], []⟩ : DB)).overdue_count = 0 ∧
     (summary_report none none (⟨[], []⟩ : DB)).draft_count = 0 ∧
     (summary_report none none (⟨[], []⟩ : DB)).sent_count = 0 ∧
     (summary_report none none (⟨[], []⟩ : DB)).collection_rate = 0) ∧
    ((summary_report none none exDB8).total_invoices = 2 ∧
     (summary_report none none exDB8).paid_count = 1 ∧
     (summary_report none none exDB8).draft_count = 1 ∧
     (summary_report none none exDB8).collection_rate = 50) := by
  refine ⟨?_, ?_, ⟨rfl, rfl, rfl, rfl, rfl, rfl⟩, ⟨rfl, rfl, rfl, ?_⟩⟩
  · intro htot
    rw [summary_report] at htot ⊢
    dsimp only at htot ⊢
    rw [if_neg]
    intro hemp
    rw [List.isEmpty_iff] at hemp
    rw [hemp] at htot
    exact htot rfl
  · intro htot
    rw [summary_report] at htot ⊢
    dsimp only at htot ⊢
    rw [if_pos]
    rw [List.isEmpty_iff]
    exact List.length_eq_zero.mp htot
  · refine (show (summary_report none none exDB8).collection_rate =
      round1 ((((1:ℕ):ℚ)) / (((2:ℕ):ℚ)) * 100) from rfl).trans ?_
    exact round1_eval _ _ 500 (by push_cast; norm_num) (by norm_num)

/-- Witness for C8: the non-empty case of the rate formula instantiated on
`exDB8`, and the empty-store case instantiated on the empty store. -/
theorem summary_report_spec_witness :
    (summary_report none none exDB8).collection_rate =
      round1 (((summary_report none none exDB8).paid_count : ℚ) /
        ((summary_report none none exDB8).total_invoices : ℚ) * 100) ∧
    (summary_report none none (⟨[], []⟩ : DB)).collection_rate = 0 :=
  ⟨(summary_report_spec none none exDB8).1 (by decide),
   (summary_report_spec none none (⟨[], []⟩ : DB)).2.1 rfl⟩

/-- A single `%` pattern matches every text. -/
theorem likeMatch_pct_nil : ∀ t, likeMatch ['%'] t = true
  | [] => by simp [likeMatch]
  | x :: xs => by
    simp [likeMatch, likeMatch_pct_nil xs]

/-- A wildcard-free pattern followed by `%` matches exactly the texts it
case-insensitively starts. -/
theorem likeMatch_nowild_pct (c : List Char) (hw : ∀ a ∈ c, a ≠ '%' ∧ a ≠ '_') :
    ∀ t, likeMatch (c ++ ['%']) t = ciStartsWith c t := by
  induction c with
  | nil =>
    intro t
    simp [ciStartsWith, likeMatch_pct_nil t]
  | cons a c' ih =>
    intro t
    have ha := hw a (List.mem_cons_self a c')
    have hw' : ∀ x ∈ c', x ≠ '%' ∧ x ≠ '_' := fun x hx => hw x (List.mem_cons_of_mem a hx)
    cases t with
    | nil => simp [likeMatch, ciStartsWith, ha.1]
    | cons x xs => simp [likeMatch, ciStartsWith, ha.1, ha.2, ih hw' xs]

/-- `%c%` with wildcard-free `c` computes case-insensitive containment. -/
theorem likeMatch_pct_nowild (c : List Char) (hw : ∀ a ∈ c, a ≠ '%' ∧ a ≠ '_') :
    ∀ t, likeMatch ('%' :: (c ++ ['%'])) t = ciContainsAux c t := by
  intro t
  induction t with
  | nil => simp [likeMatch, ciContainsAux, likeMatch_nowild_pct c hw []]
  | cons x xs ih => simp [likeMatch, ciContainsAux, likeMatch_nowild_pct c hw, ih]

/-- The `list_invoices` filter with a non-empty wildcard-free client text
is status match plus ASCII case-insensitive substring containment. -/
theorem listPred_eq_ci (status : Option String) (c : String) (hc : c ≠ "")
    (hw : ∀ a ∈ c.toList, a ≠ '%' ∧ a ≠ '_') (r : InvoiceRow) :
    listPred status (some c) r = (statusPred status r && ciContains r.client_name c) := by
  rw [listPred]
  have hl : ("%" ++ c ++ "%").toList = '%' :: (c.toList ++ ['%']) := by
    show ('%' :: c.toList) ++ ['%'] = '%' :: (c.toList ++ ['%'])
    simp
  rw [clientPred]
  simp only [if_neg hc, hl, likeMatch_pct_nowild c.toList hw r.client_name.toList]
  rfl

/-- Claim C9 (amended): `list_invoices` with a non-empty, wildcard-free
client filter returns exactly the invoices whose `client_name` contains the
text as an ASCII case-INsensitive substring (SQLite `LIKE` semantics), with
the status filter applied when given, ordered by `created_at` descending. -/
theorem list_invoices_ci_filter_sorted (status : Option String) (c : String) (db : DB)
    (hc : c ≠ "") (hw : ∀ a ∈ c.toList, a ≠ '%' ∧ a ≠ '_') :
    (list_invoices status (some c) db).Perm
      ((db.invoices.filter (fun r =>
        statusPred status r && ciContains r.client_name c)).map (fetchRow db)) ∧
    List.Sorted (fun a b : Invoice => b.created_at ≤ a.created_at)
      (list_invoices status (some c) db) := by
  have hfil : db.invoices.filter (listPred status (some c)) =
      db.invoices.filter (fun r => statusPred status r && ciContains r.client_name c) :=
    List.filter_congr (fun r _ => listPred_eq_ci status c hc hw r)
  constructor
  · rw [list_invoices]
    show (((db.invoices.filter (listPred status (some c))).insertionSort
      byCreatedDesc).map (fetchRow _)).Perm _
    rw [hfil]
    exact (List.perm_insertionSort byCreatedDesc _).map _
  · rw [list_invoices]
    show List.Sorted _ (((db.invoices.filter (listPred status (some c))).insertionSort
      byCreatedDesc).map (fetchRow _))
    have hs := List.sorted_insertionSort byCreatedDesc
      (db.invoices.filter (listPred status (some c)))
    exact List.Pairwise.map _ (fun a b (h : byCreatedDesc a b) => h) hs

/-- Counterexample to C9 as stated: with the store `exDB9` the code
returns the invoice named `ACME` for the filter `Acme`, although `ACME`
does not contain `Acme` as a case-sensitive substring. -/
theorem list_invoices_case_sensitive_cex :
    ((list_invoices none (some "Acme") exDB9).map (fun i => i.client_name)) = ["ACME"] ∧
    specContainsSubstring "ACME" "Acme" = false := by
  constructor
  · simp [list_invoices, invoicesOf, fetchRow, rowToInvoice, listPred, statusPred,
      clientPred, exDB9, baseRow, List.filter_cons, likeMatch, foldChar,
      List.insertionSort, List.orderedInsert]
  · decide

/-- Witness for the amended C9 at the concrete store `exDB9`. -/
theorem list_invoices_ci_filter_sorted_witness :
    (list_invoices none (some "Acme") exDB9).Perm
      ((exDB9.invoices.filter (fun r =>
        statusPred none r && ciContains r.client_name "Acme")).map (fetchRow exDB9)) ∧
    List.Sorted (fun a b : Invoice => b.created_at ≤ a.created_at)
      (list_invoices none (some "Acme") exDB9) :=
  list_invoices_ci_filter_sorted none "Acme" exDB9 (by decide) (by decide)

/-- Reading the stored line-item rows back yields the original items. -/
theorem itemRows_map_back (itemIds : Nat → String) (invId : String) :
    ∀ (i : Nat) (l : List LineItem),
      (itemRows itemIds invId i l).map
        (fun r => (⟨r.description, r.qty, r.unit_price⟩ : LineItem)) = l
  | _, [] => rfl
  | i, li :: rest => by
    simp only [itemRows, List.map_cons, itemRows_map_back itemIds invId (i + 1) rest]

/-- Every stored line-item row carries the new invoice's id. -/
theorem itemRows_invoice_id (itemIds : Nat → String) (invId : String) :
    ∀ (i : Nat) (l : List LineItem), ∀ r ∈ itemRows itemIds invId i l,
      r.invoice_id = invId := by
  intro i l
  induction l generalizing i with
  | nil => intro r hr; exact absurd hr (List.not_mem_nil r)
  | cons li rest ih =>
    intro r hr
    rcases List.mem_cons.mp hr with rfl | hr
    · rfl
    · exact ih (i + 1) r hr

/-- Stored positions are at least the starting index. -/
theorem itemRows_position_ge (itemIds : Nat → String) (invId : String) :
    ∀ (i : Nat) (l : List LineItem), ∀ r ∈ itemRows itemIds invId i l,
      i ≤ r.position := by
  intro i l
  induction l generalizing i with
  | nil => intro r hr; exact absurd hr (List.not_mem_nil r)
  | cons li rest ih =>
    intro r hr
    rcases List.mem_cons.mp hr with rfl | hr
    · exact Nat.le_refl i
    · exact Nat.le_trans (Nat.le_succ i) (ih (i + 1) r hr)

/-- The stored rows are already in ascending position order. -/
theorem itemRows_sorted (itemIds : Nat → String) (invId : String) :
    ∀ (i : Nat) (l : List LineItem),
      List.Sorted byPosition (itemRows itemIds invId i l) := by
  intro i l
  induction l generalizing i with
  | nil => exact List.sorted_nil
  | cons li rest ih =>
    rw [itemRows, List.sorted_cons]
    constructor
    · intro b hb
      exact Nat.le_trans (Nat.le_succ i) (itemRows_position_ge itemIds invId (i + 1) rest b hb)
    · exact ih (i + 1)

/-- `find?` skips a prefix in which nothing matches. -/
theorem find?_append_none {α : Type} (p : α → Bool) (l₁ l₂ : List α)
    (h : l₁.find? p = none) : (l₁ ++ l₂).find? p = l₂.find? p := by
  induction l₁ with
  | nil => rfl
  | cons a as ih =>
    rcases hp : p a with _ | _
    · rw [List.cons_append, List.find?_cons_of_neg _ (by simp [hp])]
      apply ih
      rwa [List.find?_cons_of_neg _ (by simp [hp])] at h
    · rw [List.find?_cons_of_pos _ hp] at h
      exact Option.noConfusion h

/-- `find?` over `l ++ [row]` returns `row` when nothing in `l` matches
and `row` does. -/
theorem find?_append_singleton {α : Type} (p : α → Bool) (l : List α) (row : α)
    (h : l.find? p = none) (hp : p row = true) :
    (l ++ [row]).find? p = some row := by
  rw [find?_append_none p l [row] h]
  exact List.find?_cons_of_pos _ hp

/-- Claim C10: after a successful `create_invoice`, `get_invoice` with the
new id succeeds and returns the line items in the original insertion order
with identical description, qty and unit_price (positions are written at
insert and read back ordered by position). -/
theorem create_get_round_trip
    (client_name client_email notes currency newId now due_date : String)
    (items : List LineItem) (tax_rate discount : ℚ)
    (itemIds : Nat → String) (year : Nat) (db : DB)
    (hne : items ≠ [])
    (htax : 0 ≤ tax_rate ∧ tax_rate ≤ 1) (hdisc : 0 ≤ discount ∧ discount ≤ 1)
    (hfresh_inv : ∀ r ∈ db.invoices, r.id ≠ newId)
    (hfresh_li : ∀ r ∈ db.line_items, r.invoice_id ≠ newId) :
    ∃ inv db', create_invoice client_name client_email items tax_rate discount
        notes currency newId itemIds year now due_date db = (.ok inv, db') ∧
      inv.line_items = items ∧
      ∃ inv', get_invoice newId db' = .ok inv' ∧ inv'.line_items = items := by
  have hemp : ¬ (items.isEmpty = true) := by
    intro h
    exact hne (List.isEmpty_iff.mp h)
  rw [create_invoice, if_neg hemp, if_neg (not_not_intro htax), if_neg (not_not_intro hdisc)]
  refine ⟨_, _, rfl, rfl, ?_⟩
  have hfind_old : db.invoices.find? (fun r => r.id == newId) = none := by
    rw [List.find?_eq_none]
    intro r hr
    simp [hfresh_inv r hr]
  rw [get_invoice, find?_append_singleton (fun r => r.id == newId) db.invoices _
    hfind_old (by simp)]
  have hfil_old : db.line_items.filter (fun r => r.invoice_id == newId) = [] := by
    rw [List.filter_eq_nil_iff]
    intro r hr
    simp [hfresh_li r hr]
  have hfil : (db.line_items ++ itemRows itemIds newId 0 items).filter
      (fun r => r.invoice_id == newId) = itemRows itemIds newId 0 items := by
    rw [List.filter_append, hfil_old, List.nil_append]
    rw [List.filter_eq_self]
    intro r hr
    simp [itemRows_invoice_id itemIds newId 0 items r hr]
  refine ⟨_, rfl, ?_⟩
  show (((db.line_items ++ itemRows itemIds newId 0 items).filter
      (fun r => r.invoice_id == newId)).insertionSort byPosition).map
      (fun r => (⟨r.description, r.qty, r.unit_price⟩ : LineItem)) = items
  rw [hfil, (itemRows_sorted itemIds newId 0 items).insertionSort_eq,
    itemRows_map_back itemIds newId 0 items]

/-- Witness for C10: creating a two-item invoice with the fresh id `n10`
in `exDB2` and fetching it back returns the same items in order. -/
theorem create_get_round_trip_witness :
    ∃ inv db', create_invoice "Acme" "a@a.com" [⟨"A", 2, 100⟩, ⟨"B", 1, 50⟩] 0 0
        "" "USD" "n10" (fun _ => "li") 2025 "2025-10-12T00:00:00" "2025-11-11" exDB2 =
        (.ok inv, db') ∧
      inv.line_items = [⟨"A", 2, 100⟩, ⟨"B", 1, 50⟩] ∧
      ∃ inv', get_invoice "n10" db' = .ok inv' ∧
        inv'.line_items = [⟨"A", 2, 100⟩, ⟨"B", 1, 50⟩] :=
  create_get_round_trip "Acme" "a@a.com" "" "USD" "n10" "2025-10-12T00:00:00"
    "2025-11-11" [⟨"A", 2, 100⟩, ⟨"B", 1, 50⟩] 0 0 (fun _ => "li") 2025 exDB2
    (by simp) (by norm_num) (by norm_num) (by decide) (by decide)
